import Mathlib

/-!
Shallow embedding of the MusicAI per-tenant playback scheduler and
progressive playlist loader.

Sources embedded here:
- `src/services/music_queue.py` (`Track`, `PlaylistLoader`, `QueueItem`,
  `MusicQueue`, `QueueManager`);
- `src/cogs/music.py` (`Music` cog: `play_next`, `_handle_playback_complete`,
  `_process_track`, `process_playlist`, `load_next_batch`, `stop`, `next`
  (the skip command), `create_player`, `cleanup_player`);
- `src/services/youtube_v2.py` (`YouTubeService.extract_video_info`).

Modelling conventions:
- Python `deque`/`list` become `List`; the `_callbacks` dict becomes an
  association list with unique keys; `uuid.uuid4()` is modelled by a
  monotone counter (`next_callback_id`), which preserves the property that
  matters: every registered callback gets a key not currently in the table.
- Python callables stored as continuations become values of the inductive
  `Callback`; invoking one is modelled by emitting an `InvokeEvent` into an
  event list returned alongside the new state.  Whether the callable raises
  is an oracle `raises : Callback → Bool`; the `try/except` in
  `MusicQueue.get_next_track` is modelled by recording the raise in the
  event and continuing either way.
- Awaited external collaborators (media resolution, the voice transport)
  are oracles passed as arguments; calls that merely emit user-facing
  messages are recorded as `Msg` values.
-/

namespace MusicAI

/-- `Track` dataclass from `src/services/music_queue.py`. -/
structure Track where
  title : String
  url : String
  duration : Int
  thumbnail : Option String := none
  stream_url : Option String := none
  deriving Repr, DecidableEq

/-- A playlist entry descriptor as produced by
`YouTubeService.get_playlist_info`; `process_playlist` only reads
`entry['url']`, so the entry is modelled by its url. -/
structure Entry where
  url : String
  deriving Repr, DecidableEq

/-- `PlaylistLoader` dataclass from `src/services/music_queue.py`. -/
structure PlaylistLoader where
  current_index : Nat := 0
  video_entries : List Entry := []
  total_tracks : Nat := 0
  is_loading : Bool := false
  url : String := ""
  deriving Repr, DecidableEq

/-- A continuation stored in the queue's callback table.  The playlist
loader registers `lambda: asyncio.create_task(self.load_next_batch(ctx,
playlist_url))`; any other caller-supplied callable is an opaque tag. -/
inductive Callback
  | loadNextBatch (playlist_url : String)
  | external (tag : Nat)
  deriving Repr, DecidableEq

/-- `QueueItem` dataclass from `src/services/music_queue.py`. -/
structure QueueItem where
  track : Track
  callback_id : Option Nat := none
  deriving Repr, DecidableEq

/-- Record of one continuation invocation performed by
`MusicQueue.get_next_track`: the callback id, the stored callable, and
whether the callable raised (in which case the `except` branch logged the
error and execution continued). -/
structure InvokeEvent where
  cid : Nat
  cb : Callback
  raised : Bool
  deriving Repr, DecidableEq

/-- `MusicQueue` state from `src/services/music_queue.py`.  `_callbacks`
is an association list keyed by callback id; `next_callback_id` models the
fresh-uuid generator. -/
structure MusicQueue where
  queue : List QueueItem := []
  current_track : Option Track := none
  is_playing : Bool := false
  playlist_processing : Bool := false
  playlist_loader : Option PlaylistLoader := none
  callbacks : List (Nat × Callback) := []
  next_callback_id : Nat := 0
  deriving Repr, DecidableEq

/-- Dictionary lookup in the `_callbacks` table. -/
def lookupCb (cs : List (Nat × Callback)) (cid : Nat) : Option Callback :=
  (cs.find? (fun p => p.1 = cid)).map Prod.snd

/-- `dict.pop(key)`'s removal effect on the `_callbacks` table. -/
def eraseCb (cs : List (Nat × Callback)) (cid : Nat) : List (Nat × Callback) :=
  cs.filter (fun p => p.1 ≠ cid)

/-- `MusicQueue.add_track`: registers the optional `on_start` callable
under a fresh id and appends the wrapped item. -/
def MusicQueue.add_track (q : MusicQueue) (t : Track)
    (on_start : Option Callback := none) : MusicQueue :=
  match on_start with
  | some cb =>
      { q with
        callbacks := q.callbacks ++ [(q.next_callback_id, cb)],
        queue := q.queue ++ [{ track := t, callback_id := some q.next_callback_id }],
        next_callback_id := q.next_callback_id + 1 }
  | none => { q with queue := q.queue ++ [{ track := t, callback_id := none }] }

/-- `MusicQueue.get_next_track`: pops the head item; if it carries a
callback id present in the table, pops the callable from the table and
invokes it inside `try/except` (the raise, if any, is logged and
swallowed), then returns the track.  The third component is the list of
invocation events performed. -/
def MusicQueue.get_next_track (raises : Callback → Bool) (q : MusicQueue) :
    Option Track × MusicQueue × List InvokeEvent :=
  match q.queue with
  | [] => (none, q, [])
  | item :: rest =>
      match item.callback_id with
      | some cid =>
          match lookupCb q.callbacks cid with
          | some cb =>
              (some item.track,
               { q with queue := rest, callbacks := eraseCb q.callbacks cid },
               [{ cid := cid, cb := cb, raised := raises cb }])
          | none => (some item.track, { q with queue := rest }, [])
      | none => (some item.track, { q with queue := rest }, [])

/-- `MusicQueue.clear`: empties the queue, resets `current_track`,
`is_playing` and `playlist_loader`, and clears the callback table.  It
performs no continuation invocation, hence the empty event list.  Note it
does not touch `playlist_processing`. -/
def MusicQueue.clear (q : MusicQueue) : MusicQueue × List InvokeEvent :=
  ({ q with
      queue := [],
      current_track := none,
      is_playing := false,
      playlist_loader := none,
      callbacks := [] }, [])

/-- `MusicQueue.start_playlist_loading`. -/
def MusicQueue.start_playlist_loading (q : MusicQueue) (playlist_url : String) :
    MusicQueue :=
  { q with
    playlist_loader := some { url := playlist_url },
    playlist_processing := true }

/-- `MusicQueue.finish_playlist_loading`. -/
def MusicQueue.finish_playlist_loading (q : MusicQueue) : MusicQueue :=
  { q with playlist_processing := false }

/-- `MusicQueue.is_playlist_complete`. -/
def MusicQueue.is_playlist_complete (q : MusicQueue) : Bool :=
  match q.playlist_loader with
  | none => true
  | some pl => pl.current_index ≥ pl.video_entries.length

/-- `MusicQueue.get_playlist_progress`. -/
def MusicQueue.get_playlist_progress (q : MusicQueue) : Nat × Nat :=
  match q.playlist_loader with
  | none => (0, 0)
  | some pl => (pl.current_index, pl.total_tracks)

/-- Modelled from the spec: `MusicQueue.skip_tracks` is invoked by the
skip command (`Music.next`, `src/cogs/music.py` line 628) but no
definition of it exists anywhere under `src/`.  Following the spec's
*Skip(n)* contract — "Pops up to `n` items without invoking their
continuations' side effects" and Scenario C — it removes up to `n` items
from the head of the queue without invoking any continuation, and returns
the number of tracks skipped (which the caller reports). -/
def MusicQueue.skip_tracks (q : MusicQueue) (n : Nat) :
    Nat × MusicQueue × List InvokeEvent :=
  let k := min n q.queue.length
  (k, { q with queue := q.queue.drop k }, [])

/-! ## Playback orchestrator (`src/cogs/music.py`) -/

/-- Outcome of the voice-client check at the top of `Music.play_next`:
either the client is connected (or `auto_reconnect` succeeded), or
reconnection failed and the `leave` path runs. -/
inductive VoiceStatus
  | connected
  | unreachable
  deriving Repr, DecidableEq

/-- The state-lock section of `Music.play_next` (lines 127-152), together
with the `leave` path taken when the voice client cannot be reconnected
(`leave` clears the queue).  Returns the new queue state, the dequeued
track (if any), and the continuation-invocation events. -/
def play_next_locked (voice : VoiceStatus) (raises : Callback → Bool)
    (q : MusicQueue) : MusicQueue × Option Track × List InvokeEvent :=
  match voice with
  | .unreachable => ((q.clear).1, none, [])
  | .connected =>
      match q.queue with
      | [] => ({ q with is_playing := false, current_track := none }, none, [])
      | _ :: _ =>
          let r := q.get_next_track raises
          ({ r.2.1 with current_track := r.1 }, r.1, r.2.2)

/-- `Music._handle_playback_complete` (lines 91-119): under the state
lock, if the queue is non-empty mark should-play-next and then call
`play_next`; otherwise reset `is_playing` and `current_track`. -/
def handle_playback_complete (voice : VoiceStatus) (raises : Callback → Bool)
    (q : MusicQueue) : MusicQueue × List InvokeEvent :=
  match q.queue with
  | _ :: _ =>
      let r := play_next_locked voice raises q
      (r.1, r.2.2)
  | [] => ({ q with is_playing := false, current_track := none }, [])

/-- `Music._process_track` (lines 347-382), the locked enqueue used by the
`play` and `playnow` commands: insert at `position` (when given) or
append, then claim playback (`is_playing := true`) when nothing was
playing.  Returns the new state and `should_start_playing`. -/
def process_track_locked (t : Track) (position : Option Nat)
    (q : MusicQueue) : MusicQueue × Bool :=
  let q1 :=
    match position with
    | some p => { q with queue := q.queue.insertIdx p { track := t } }
    | none => q.add_track t
  if q1.is_playing then (q1, false)
  else ({ q1 with is_playing := true }, true)

/-- Outcome reported by the skip command `Music.next`. -/
inductive SkipOutcome
  | notPositive
  | nothingPlaying
  | skipped (count : Nat)
  deriving Repr, DecidableEq

/-- The skip command `Music.next` (lines 608-637): validate the amount,
require `is_playing`, call `MusicQueue.skip_tracks`, then stop the voice
client if it is currently playing.  Returns the reported outcome, the new
queue state, whether the transport's `stop()` was called, and the
continuation-invocation events performed. -/
def skipCommand (q : MusicQueue) (amount : Int) (voicePlaying : Bool) :
    SkipOutcome × MusicQueue × Bool × List InvokeEvent :=
  if amount < 1 then (.notPositive, q, false, [])
  else if q.is_playing = false then (.nothingPlaying, q, false, [])
  else
    let r := q.skip_tracks amount.toNat
    (.skipped r.1, r.2.1, voicePlaying, r.2.2)

/-- `Music.stop` (lines 588-606): clear the queue (under the state lock),
then stop/disconnect the transport if it was playing. -/
def stopCommand (q : MusicQueue) (voicePlaying : Bool) :
    MusicQueue × List InvokeEvent × Bool :=
  let r := q.clear
  (r.1, r.2, voicePlaying)

/-- The tenant queue as first created by `QueueManager.get_queue`. -/
def initialQueue : MusicQueue := {}

/-- Tenant-queue states reachable through the orchestrator's operations:
enqueue (`_process_track`), `play_next`, completion handling
(`_handle_playback_complete`), and clear/stop. -/
inductive Reachable : MusicQueue → Prop
  | init : Reachable initialQueue
  | enqueue (t : Track) (pos : Option Nat) (q : MusicQueue) :
      Reachable q → Reachable (process_track_locked t pos q).1
  | playNext (voice : VoiceStatus) (raises : Callback → Bool) (q : MusicQueue) :
      Reachable q → Reachable (play_next_locked voice raises q).1
  | completion (voice : VoiceStatus) (raises : Callback → Bool) (q : MusicQueue) :
      Reachable q → Reachable (handle_playback_complete voice raises q).1
  | stop (q : MusicQueue) : Reachable q → Reachable (q.clear).1

/-! ## Media resolution retry loop (`src/services/youtube_v2.py`) -/

/-- Outcome of one awaited `_get_video_info` attempt inside
`YouTubeService.extract_video_info`: a timeout (`asyncio.TimeoutError`),
a cancellation (`asyncio.CancelledError`, re-raised), any other
exception, or a returned info dict (whose fields are those of `Track`). -/
inductive AttemptOutcome
  | timeoutErr
  | cancelled
  | exn
  | ok (info : Track)
  deriving Repr, DecidableEq

/-- `max_tries` local of `YouTubeService.extract_video_info`. -/
def max_tries : Nat := 2

/-- The `while tries < max_tries` loop of
`YouTubeService.extract_video_info` (lines 177-204).  `attempts i` is the
outcome of the attempt made in iteration `i`; `timeoutDur` follows the
`timeout_duration` variable (doubled after a timeout).  The loop body
increments `tries` on timeout or other exception, re-raises on
cancellation (`Except.error`), and returns the info on success; when the
guard fails the function returns `None`.  `fuel` bounds the recursion; it
is always at least `max_tries - tries + 1`, which dominates the number of
remaining iterations since `tries` strictly increases on every
non-returning iteration. -/
def extractLoop (attempts : Nat → AttemptOutcome) :
    Nat → Nat → Nat → Except Unit (Option Track)
  | 0, _, _ => .ok none
  | fuel + 1, tries, timeoutDur =>
      if tries < max_tries then
        match attempts tries with
        | .ok info => .ok (some info)
        | .timeoutErr => extractLoop attempts fuel (tries + 1) (timeoutDur * 2)
        | .exn => extractLoop attempts fuel (tries + 1) timeoutDur
        | .cancelled => .error ()
      else .ok none

/-- `YouTubeService.extract_video_info` (lines 170-204): the retry loop
run with `tries = 0` and `timeout_duration = 5`. -/
def extract_video_info (attempts : Nat → AttemptOutcome) :
    Except Unit (Option Track) :=
  extractLoop attempts (max_tries + 1) 0 5

/-! ## Progressive playlist ingestion (`Music.process_playlist`) -/

/-- Result delivered for one batch entry by
`asyncio.gather(..., return_exceptions=True)` over
`extract_video_info` calls: a captured exception, a `None` return
(retries exhausted), or an info dict (turned into a `Track` by
`Track(**result)`). -/
inductive ResolveResult
  | exn
  | failed
  | resolved (t : Track)
  deriving Repr, DecidableEq

/-- User-facing notifications emitted by `process_playlist`. -/
inductive Msg
  | extracting
  | infoError
  | noEntries
  | found (total : Nat)
  | startedPlayback
  | batchLoaded (lo hi added skipped : Nat)
  | finishedPlaylist (cur total added skipped : Nat)
  deriving Repr, DecidableEq

/-- Accumulator of the `for i, result in enumerate(batch_results)` loop in
`process_playlist` (lines 239-268).  `enqueued` records each
`queue.add_track` call of the loop as the pair of the track and whether
the lookahead continuation was attached to it; `playbackStarted` records
whether the loop claimed playback and called `play_next` for the very
first track (the `play_next` call itself belongs to the orchestrator
layer modelled by `play_next_locked` and is recorded here as an event). -/
structure BatchState where
  q : MusicQueue
  added : Nat := 0
  skipped : Nat := 0
  enqueued : List (Track × Bool) := []
  playbackStarted : Bool := false
  deriving Repr, DecidableEq

/-- One iteration of the batch-results loop: exceptions and `None`
results are counted as skipped; a resolved track is enqueued — with the
`load_next_batch` lookahead continuation when it is the 9th successful
track of the batch (`added_tracks == 8`) and the loader is not complete —
and playback is claimed if this is the first entry of the first batch and
nothing is playing. -/
def processResult (playlist_url : String) (startIdx : Nat)
    (s : BatchState) (ir : Nat × ResolveResult) : BatchState :=
  match ir.2 with
  | .exn => { s with skipped := s.skipped + 1 }
  | .failed => { s with skipped := s.skipped + 1 }
  | .resolved t =>
      let lookahead := s.added = 8 ∧ s.q.is_playlist_complete = false
      let q1 :=
        if s.added = 8 ∧ s.q.is_playlist_complete = false then
          s.q.add_track t (some (.loadNextBatch playlist_url))
        else s.q.add_track t
      let s1 := { s with
        q := q1,
        enqueued := s.enqueued ++ [(t, decide lookahead)] }
      let s2 :=
        if startIdx = 0 ∧ ir.1 = 0 ∧ s1.q.is_playing = false then
          { s1 with q := { s1.q with is_playing := true }, playbackStarted := true }
        else s1
      { s2 with added := s2.added + 1 }

/-- Result of one `process_playlist` invocation. -/
structure PPResult where
  q : MusicQueue
  msgs : List Msg := []
  enqueued : List (Track × Bool) := []
  added : Nat := 0
  skipped : Nat := 0
  playbackStarted : Bool := false
  deriving Repr, DecidableEq

/-- The batch stage of `process_playlist` (lines 215-294), entered with a
loader already attached to the queue: slice
`video_entries[current_index : current_index+10]`, finish loading if the
slice is empty, otherwise resolve every entry (`asyncio.gather` applies
the per-entry results in entry order, whatever the completion order),
run the results loop, advance `current_index` to the batch end, and
finish loading when the playlist is then complete.  `resolve` is the
per-entry resolution oracle. -/
def processBatch (playlist_url : String) (resolve : Entry → ResolveResult)
    (q : MusicQueue) (msgs0 : List Msg) : PPResult :=
  match q.playlist_loader with
  | none => { q := q, msgs := msgs0 }
  | some pl =>
      let startIdx := pl.current_index
      let endIdx := min (startIdx + 10) pl.video_entries.length
      let batch := (pl.video_entries.drop startIdx).take (endIdx - startIdx)
      if batch = [] then { q := q.finish_playlist_loading, msgs := msgs0 }
      else
          let results := batch.map resolve
          let s := results.enum.foldl (processResult playlist_url startIdx)
            ({ q := q } : BatchState)
          let q1 := { s.q with
            playlist_loader := s.q.playlist_loader.map
              (fun (pl2 : PlaylistLoader) => { pl2 with current_index := endIdx }) }
          let prog := q1.get_playlist_progress
          { q := if q1.is_playlist_complete then q1.finish_playlist_loading else q1,
            msgs := msgs0 ++
              [if q1.is_playlist_complete then
                  .finishedPlaylist prog.1 prog.2 s.added s.skipped
                else .batchLoaded (startIdx + 1) endIdx s.added s.skipped],
            enqueued := s.enqueued, added := s.added, skipped := s.skipped,
            playbackStarted := s.playbackStarted }

/-- `Music.process_playlist` (lines 191-299).  When the queue has no
loader yet, `get_playlist_info` is awaited first (`playlistInfo` is its
outcome): an exception or an empty entry list is reported and the
function returns without creating a loader; otherwise
`start_playlist_loading` attaches a fresh loader, its entries and total
are filled in, and processing falls through to the batch stage. -/
def process_playlist (playlist_url : String)
    (playlistInfo : Except Unit (List Entry × Nat))
    (resolve : Entry → ResolveResult) (q : MusicQueue) : PPResult :=
  match q.playlist_loader with
  | some _ => processBatch playlist_url resolve q []
  | none =>
      match playlistInfo with
      | .error _ => { q := q, msgs := [.extracting, .infoError] }
      | .ok (entries, total) =>
          match entries with
          | [] => { q := q, msgs := [.extracting, .noEntries] }
          | _ :: _ =>
              let q1 := q.start_playlist_loading playlist_url
              let q2 := { q1 with
                playlist_loader := q1.playlist_loader.map
                  (fun pl => { pl with video_entries := entries, total_tracks := total }) }
              processBatch playlist_url resolve q2 [.extracting, .found total]

/-- Iterated driving of the batch stage, as performed by the
`load_next_batch` lookahead continuations between batches: keep calling
`processBatch` while `playlist_processing` holds, accumulating the
enqueued tracks and the per-batch added/skipped counts.  `fuel` bounds
the iteration. -/
def driveLoader (playlist_url : String) (resolve : Entry → ResolveResult) :
    Nat → MusicQueue → MusicQueue × List (Track × Bool) × Nat × Nat
  | 0, q => (q, [], 0, 0)
  | fuel + 1, q =>
      if q.playlist_processing then
        let r := processBatch playlist_url resolve q []
        let rest := driveLoader playlist_url resolve fuel r.q
        (rest.1, r.enqueued ++ rest.2.1, r.added + rest.2.2.1, r.skipped + rest.2.2.2)
      else (q, [], 0, 0)

/-- Projection of a resolution result to the track it contributes to the
queue, if any. -/
def okTrack : ResolveResult → Option Track
  | .resolved t => some t
  | _ => none

/-! ## Lock scoping of player lifecycle (`Music.create_player`,
`Music.cleanup_player`, `Music.play_next`)

Each orchestrator routine that touches the per-guild live player resource
is embedded as the sequence of primitive actions it performs, each tagged
with whether the per-guild playback lock (`self._playback_locks[guild_id]`)
and the cog-wide state lock (`self._lock`) are held at that point, read
off from the `async with` block structure of the code. -/

/-- Primitive actions relevant to player lifecycle and queue mutation. -/
inductive EAction
  | playerCleanup
  | playerCreate
  | dequeueTrack
  | transportPlay
  deriving Repr, DecidableEq

/-- One action together with the locks held while performing it. -/
structure OEvent where
  action : EAction
  underPlaybackLock : Bool
  underStateLock : Bool
  deriving Repr, DecidableEq

/-- `Music.create_player` (lines 53-77): inside
`async with playback_lock`, clean up the old player and construct the new
one via `YTDLSource.from_track`. -/
def create_player_events : List OEvent :=
  [{ action := .playerCleanup, underPlaybackLock := true, underStateLock := false },
   { action := .playerCreate, underPlaybackLock := true, underStateLock := false }]

/-- `Music.cleanup_player` (lines 79-89): inside
`async with playback_lock`, clean up and drop the current player. -/
def cleanup_player_events : List OEvent :=
  [{ action := .playerCleanup, underPlaybackLock := true, underStateLock := false }]

/-- `Music.play_next` (lines 121-183): the dequeue happens inside
`async with self._lock` (the state lock); the player construction
(`YTDLSource.from_track`, line 158) and the transport `play` call happen
after that block, with neither the state lock nor any playback lock
held — `play_next` never touches `self._playback_locks`. -/
def play_next_events : List OEvent :=
  [{ action := .dequeueTrack, underPlaybackLock := false, underStateLock := true },
   { action := .playerCreate, underPlaybackLock := false, underStateLock := false },
   { action := .transportPlay, underPlaybackLock := false, underStateLock := false }]

/-- All player-lifecycle-relevant routines of the orchestrator. -/
def orchestrator_events : List OEvent :=
  create_player_events ++ cleanup_player_events ++ play_next_events

/-- Whether an event creates or tears down the live player resource. -/
def OEvent.isPlayerLifecycle (e : OEvent) : Bool :=
  e.action = .playerCreate ∨ e.action = .playerCleanup

/-! ## Concrete sample data used by witnesses and counterexamples -/

/-- A concrete track. -/
def trackA : Track :=
  { title := "Song A", url := "https://yt/a", duration := 180 }

/-- A second concrete track. -/
def trackB : Track :=
  { title := "Song B", url := "https://yt/b", duration := 200 }

/-- A third concrete track. -/
def trackC : Track :=
  { title := "Song C", url := "https://yt/c", duration := 90 }

/-- Attempt oracle for Scenario E: errors on the first two attempts,
succeeds on the third. -/
def attemptsEE : Nat → AttemptOutcome :=
  fun n => if n < 2 then .exn else .ok trackA

/-- Attempt oracle that errors once, then succeeds. -/
def attemptsES : Nat → AttemptOutcome :=
  fun n => if n = 0 then .exn else .ok trackA

/-- A 12-entry playlist whose entries are numbered urls. -/
def entries12 : List Entry :=
  (List.range 12).map (fun i => { url := toString i })

/-! ## Helper lemmas -/

/-- Popping a key from the callback table makes later lookups of that key
fail. -/
theorem lookupCb_eraseCb_self (cs : List (Nat × Callback)) (cid : Nat) :
    lookupCb (eraseCb cs cid) cid = none := by
  induction cs with
  | nil => rfl
  | cons p tl ih =>
      by_cases h : p.1 = cid
      · simpa [eraseCb, List.filter_cons, h] using ih
      · simp [eraseCb, lookupCb, List.filter_cons, List.find?_cons, h]

/-- `get_next_track` only invokes continuations it finds in the callback
table: if `cid` is absent from the table, no emitted event carries it. -/
theorem get_next_track_no_event_of_missing (raises : Callback → Bool)
    (q : MusicQueue) (cid : Nat) (h : lookupCb q.callbacks cid = none) :
    ((q.get_next_track raises).2.2.all (fun e => e.cid ≠ cid)) = true := by
  rcases hq : q.queue with _ | ⟨item, rest⟩
  · simp [MusicQueue.get_next_track, hq]
  · rcases hcid : item.callback_id with _ | cid2
    · simp [MusicQueue.get_next_track, hq, hcid]
    · rcases hcb : lookupCb q.callbacks cid2 with _ | cb
      · simp [MusicQueue.get_next_track, hq, hcid, hcb]
      · simp only [MusicQueue.get_next_track, hq, hcid, hcb, List.all_cons,
          List.all_nil, Bool.and_true]
        have : cid2 ≠ cid := by
          intro he
          rw [he, h] at hcb
          exact Option.noConfusion hcb
        simp [this]

/-! ## Claim theorems -/

/-- C7: for every tenant queue state, `clear()` empties the item
sequence, sets `current_track` to `none`, resets `is_playing` to `false`,
discards any in-progress playlist loader, and drops all pending
continuations (the callback table becomes empty) without invoking any of
them (the event list of `clear` is empty). -/
theorem clear_resets_queue_state (q : MusicQueue) :
    (q.clear).1.queue = [] ∧
    (q.clear).1.current_track = none ∧
    (q.clear).1.is_playing = false ∧
    (q.clear).1.playlist_loader = none ∧
    (q.clear).1.callbacks = [] ∧
    (q.clear).2 = [] := by
  simp [MusicQueue.clear]

/-- C10: `clear()` leaves `playlist_processing` unchanged while resetting
`playlist_loader` to `none`; in particular a tenant cleared while
`playlist_processing = true` still reports a playlist as processing
afterwards. -/
theorem clear_preserves_playlist_processing (q : MusicQueue) :
    (q.clear).1.playlist_processing = q.playlist_processing ∧
    (q.clear).1.playlist_loader = none := by
  simp [MusicQueue.clear]

/-- C5: when the head queue item carries a continuation registered in the
callback table, `get_next_track` invokes it exactly once (the event list
is exactly that one invocation, with the `try/except`-recorded raise
status taken from the oracle), consumes it (the id no longer resolves in
the table, so an immediately following `get_next_track` emits no event
for it), and returns the track whether or not the continuation raises. -/
theorem get_next_track_fires_continuation_once (raises : Callback → Bool)
    (q : MusicQueue) (item : QueueItem) (rest : List QueueItem)
    (cid : Nat) (cb : Callback)
    (hq : q.queue = item :: rest) (hcid : item.callback_id = some cid)
    (hcb : lookupCb q.callbacks cid = some cb) :
    (q.get_next_track raises).1 = some item.track ∧
    (q.get_next_track raises).2.2 =
      [{ cid := cid, cb := cb, raised := raises cb }] ∧
    lookupCb (q.get_next_track raises).2.1.callbacks cid = none ∧
    (q.get_next_track raises).2.1.queue = rest ∧
    (((q.get_next_track raises).2.1.get_next_track raises).2.2.all
      (fun e => e.cid ≠ cid)) = true := by
  have hmain : q.get_next_track raises =
      (some item.track,
       { q with queue := rest, callbacks := eraseCb q.callbacks cid },
       [{ cid := cid, cb := cb, raised := raises cb }]) := by
    simp [MusicQueue.get_next_track, hq, hcid, hcb]
  refine ⟨by rw [hmain], by rw [hmain], ?_, by rw [hmain], ?_⟩
  · rw [hmain]
    exact lookupCb_eraseCb_self q.callbacks cid
  · apply get_next_track_no_event_of_missing
    rw [hmain]
    exact lookupCb_eraseCb_self q.callbacks cid

/-- Witness for C5 at a concrete queue holding one item whose
continuation is registered and raises. -/
theorem get_next_track_fires_continuation_once_witness :
    ((initialQueue.add_track trackA (some (.external 7))).get_next_track
      (fun _ => true)).1 = some trackA ∧
    ((initialQueue.add_track trackA (some (.external 7))).get_next_track
      (fun _ => true)).2.2 =
      [{ cid := 0, cb := .external 7, raised := true }] ∧
    lookupCb (((initialQueue.add_track trackA (some (.external 7))).get_next_track
      (fun _ => true)).2.1).callbacks 0 = none ∧
    ((initialQueue.add_track trackA (some (.external 7))).get_next_track
      (fun _ => true)).2.1.queue = [] ∧
    ((((initialQueue.add_track trackA (some (.external 7))).get_next_track
      (fun _ => true)).2.1.get_next_track (fun _ => true)).2.2.all
      (fun e => e.cid ≠ 0)) = true :=
  get_next_track_fires_continuation_once (fun _ => true)
    (initialQueue.add_track trackA (some (.external 7)))
    { track := trackA, callback_id := some 0 } [] 0 (.external 7) rfl rfl rfl

/-- C8: when playlist resolution yields zero entries and no loader is
attached yet, `process_playlist` reports a failure notification
(`noEntries`) and returns without creating a playlist loader, enqueuing
nothing; the queue state is unchanged and in particular
`playlist_processing` remains `false` when it was `false`. -/
theorem process_playlist_zero_entries (playlist_url : String) (total : Nat)
    (resolve : Entry → ResolveResult) (q : MusicQueue)
    (hl : q.playlist_loader = none) (hp : q.playlist_processing = false) :
    (process_playlist playlist_url (.ok ([], total)) resolve q).q = q ∧
    (process_playlist playlist_url (.ok ([], total)) resolve q).msgs =
      [.extracting, .noEntries] ∧
    (process_playlist playlist_url (.ok ([], total)) resolve q).q.playlist_loader
      = none ∧
    (process_playlist playlist_url (.ok ([], total)) resolve q).q.playlist_processing
      = false ∧
    (process_playlist playlist_url (.ok ([], total)) resolve q).enqueued = [] := by
  simp [process_playlist, hl, hp]

/-- Witness for C8 at the fresh tenant queue. -/
theorem process_playlist_zero_entries_witness :
    (process_playlist "pl" (.ok ([], 0)) (fun _ => .exn) initialQueue).q
      = initialQueue ∧
    (process_playlist "pl" (.ok ([], 0)) (fun _ => .exn) initialQueue).msgs =
      [.extracting, .noEntries] ∧
    (process_playlist "pl" (.ok ([], 0)) (fun _ => .exn)
      initialQueue).q.playlist_loader = none ∧
    (process_playlist "pl" (.ok ([], 0)) (fun _ => .exn)
      initialQueue).q.playlist_processing = false ∧
    (process_playlist "pl" (.ok ([], 0)) (fun _ => .exn) initialQueue).enqueued
      = [] :=
  process_playlist_zero_entries "pl" 0 (fun _ => .exn) initialQueue rfl rfl

/-- C4 counterexample: it is not the case that every creation or teardown
of the live player resource in the orchestrator's routines happens while
holding the tenant's playback lock — `Music.play_next` constructs its
player (`YTDLSource.from_track`, line 158) outside every lock. -/
theorem player_lifecycle_lock_counterexample :
    ¬ (∀ e ∈ orchestrator_events,
        e.isPlayerLifecycle = true → e.underPlaybackLock = true) := by
  decide

/-- C4 amended: `create_player` and `cleanup_player` do perform every
player creation and teardown under the playback lock, but `play_next`
performs a player construction with the playback lock not held (and the
state lock also released), so mutual exclusion of overlapping
player-constructions is not enforced on the `play_next` path. -/
theorem player_lifecycle_lock_amended :
    ((create_player_events ++ cleanup_player_events).all
      (fun e => !e.isPlayerLifecycle || e.underPlaybackLock)) = true ∧
    (play_next_events.any
      (fun e => e.isPlayerLifecycle && !e.underPlaybackLock
        && !e.underStateLock)) = true := by
  decide

/-- Full characterization of `extract_video_info`: only the outcomes of
attempts `0` and `1` are ever consulted (`max_tries = 2`). -/
theorem extract_video_info_eq (f : Nat → AttemptOutcome) :
    extract_video_info f =
      match f 0 with
      | .ok info => .ok (some info)
      | .cancelled => .error ()
      | .timeoutErr =>
          match f 1 with
          | .ok info => .ok (some info)
          | .cancelled => .error ()
          | .timeoutErr => .ok none
          | .exn => .ok none
      | .exn =>
          match f 1 with
          | .ok info => .ok (some info)
          | .cancelled => .error ()
          | .timeoutErr => .ok none
          | .exn => .ok none := by
  cases h0 : f 0 <;> cases h1 : f 1 <;>
    simp [extract_video_info, extractLoop, max_tries, h0, h1]

/-- C2 counterexample: an entry whose resolution errors on the first two
attempts and would succeed on a third is *not* resolved —
`extract_video_info` returns `none` (the entry is skipped), because
`max_tries = 2` leaves no third attempt.  So the claimed "errors twice
then succeeds on a third bounded retry → the track's info is returned"
fails on the code. -/
theorem extract_retry_counterexample :
    attemptsEE 0 = .exn ∧
    attemptsEE 1 = .exn ∧
    attemptsEE 2 = .ok trackA ∧
    extract_video_info attemptsEE = .ok none ∧
    (Except.ok (none : Option Track) : Except Unit (Option Track)) ≠
      .ok (some trackA) := by
  refine ⟨rfl, rfl, rfl, rfl, ?_⟩
  simp

/-- C2 amended: the retry loop of `extract_video_info` is bounded at
`max_tries = 2` attempts.  A success on the first attempt, or on the
second after one error/timeout, returns the track's info (so the track is
enqueued); two errors/timeouts exhaust the retries and yield a skipped
entry (`none`) — even if a third attempt would have succeeded; and the
result only ever depends on the outcomes of attempts `0` and `1`, so no
unbounded retry occurs. -/
theorem extract_retry_bounded (f : Nat → AttemptOutcome) (t : Track)
    (g : Nat → AttemptOutcome) (h0 : f 0 = g 0) (h1 : f 1 = g 1) :
    (f 0 = .ok t → extract_video_info f = .ok (some t)) ∧
    ((f 0 = .exn ∨ f 0 = .timeoutErr) → f 1 = .ok t →
      extract_video_info f = .ok (some t)) ∧
    ((f 0 = .exn ∨ f 0 = .timeoutErr) → (f 1 = .exn ∨ f 1 = .timeoutErr) →
      extract_video_info f = .ok none) ∧
    extract_video_info f = extract_video_info g := by
  refine ⟨?_, ?_, ?_, ?_⟩
  · intro ha
    rw [extract_video_info_eq, ha]
  · intro ha hb
    rcases ha with ha | ha <;> rw [extract_video_info_eq, ha, hb]
  · intro ha hb
    rcases ha with ha | ha <;> rcases hb with hb | hb <;>
      rw [extract_video_info_eq, ha, hb]
  · rw [extract_video_info_eq f, extract_video_info_eq g, h0, h1]

/-- Witness for C2 (amended) at a concrete oracle that errors once and
succeeds on the bounded second attempt, compared against an oracle that
agrees on the two consulted attempts but diverges afterwards. -/
theorem extract_retry_bounded_witness :
    extract_video_info attemptsES = .ok (some trackA) ∧
    extract_video_info attemptsES =
      extract_video_info (fun n => if n = 0 then .exn
        else if n = 1 then .ok trackA else .cancelled) :=
  ⟨(extract_retry_bounded attemptsES trackA
      (fun n => if n = 0 then .exn
        else if n = 1 then .ok trackA else .cancelled) rfl rfl).2.1
    (Or.inl rfl) rfl,
   (extract_retry_bounded attemptsES trackA
      (fun n => if n = 0 then .exn
        else if n = 1 then .ok trackA else .cancelled) rfl rfl).2.2.2⟩

/-- C3 (code evaluated at the failing input): processing the first batch
of a 12-entry playlist in which every entry fails resolution leaves the
loader permanently stalled.  Nothing is enqueued, so no item carries the
`load_next_batch` lookahead continuation (the callback table stays
empty), the queue itself is empty so no future dequeue can fire anything,
yet the cursor stands at 10 of 12 (`is_playlist_complete` is `false`) and
`playlist_processing` is still `true`: the next batch is never arranged,
contradicting the claimed stall-recovery. -/
theorem all_fail_batch_stalls_loader :
    (process_playlist "pl" (.ok (entries12, 12)) (fun _ => .exn)
      initialQueue).enqueued = [] ∧
    (process_playlist "pl" (.ok (entries12, 12)) (fun _ => .exn)
      initialQueue).skipped = 10 ∧
    (process_playlist "pl" (.ok (entries12, 12)) (fun _ => .exn)
      initialQueue).q.callbacks = [] ∧
    (process_playlist "pl" (.ok (entries12, 12)) (fun _ => .exn)
      initialQueue).q.queue = [] ∧
    (process_playlist "pl" (.ok (entries12, 12)) (fun _ => .exn)
      initialQueue).q.playlist_processing = true ∧
    (process_playlist "pl" (.ok (entries12, 12)) (fun _ => .exn)
      initialQueue).q.is_playlist_complete = false ∧
    (process_playlist "pl" (.ok (entries12, 12)) (fun _ => .exn)
      initialQueue).q.playlist_loader.map PlaylistLoader.current_index
      = some 10 :=
  ⟨rfl, rfl, rfl, rfl, rfl, rfl, rfl⟩

/-- `play_next` on a non-empty queue promotes the head item's track to
`current_track`, whichever continuation branch the dequeue takes. -/
theorem play_next_current_of_cons (raises : Callback → Bool)
    (q : MusicQueue) (item : QueueItem) (rest : List QueueItem)
    (hq : q.queue = item :: rest) :
    (play_next_locked .connected raises q).1.current_track =
      some item.track := by
  rcases hcb : item.callback_id with _ | cid
  · simp [play_next_locked, MusicQueue.get_next_track, hq, hcb]
  · rcases hl : lookupCb q.callbacks cid with _ | cb <;>
      simp [play_next_locked, MusicQueue.get_next_track, hq, hcb, hl]

/-- The completion handler on a non-empty queue promotes the head item's
track to `current_track`. -/
theorem handle_complete_current_of_cons (raises : Callback → Bool)
    (q : MusicQueue) (item : QueueItem) (rest : List QueueItem)
    (hq : q.queue = item :: rest) :
    (handle_playback_complete .connected raises q).1.current_track =
      some item.track := by
  have h := play_next_current_of_cons raises q item rest hq
  simp only [handle_playback_complete, hq] at h ⊢
  exact h

/-- C1: the skip command on a playing tenant whose queue holds at least
`n + 1` items pops exactly `n` items without invoking any continuation
(empty event list), stops the active transport playback, and the normal
completion handler then promotes what was originally the `(n+1)`-th
queued item (index `n`) to `current_track`; on a tenant with
`is_playing = false` it reports "nothing playing" and changes nothing.
`MusicQueue.skip_tracks` is modelled from the spec (see its doc
comment); the surrounding command logic is `Music.next` from the
source. -/
theorem skip_command_spec (q : MusicQueue) (n : Nat) (hn : 1 ≤ n)
    (voicePlaying : Bool) (raises : Callback → Bool) :
    (q.is_playing = false →
      skipCommand q (n : Int) voicePlaying = (.nothingPlaying, q, false, [])) ∧
    (q.is_playing = true → n + 1 ≤ q.queue.length →
      (skipCommand q (n : Int) voicePlaying).1 = .skipped n ∧
      (skipCommand q (n : Int) voicePlaying).2.1.queue = q.queue.drop n ∧
      (skipCommand q (n : Int) voicePlaying).2.2.1 = voicePlaying ∧
      (skipCommand q (n : Int) voicePlaying).2.2.2 = [] ∧
      (handle_playback_complete .connected raises
          (skipCommand q (n : Int) voicePlaying).2.1).1.current_track =
        (q.queue[n]?).map QueueItem.track) := by
  constructor
  · intro hnp
    have hlt : ¬ ((n : Int) < 1) := by
      omega
    simp [skipCommand, hlt, hnp]
  · intro hp hlen
    have hlt : ¬ ((n : Int) < 1) := by
      omega
    have hnn : n < q.queue.length := by omega
    have hcmd : skipCommand q (n : Int) voicePlaying =
        (.skipped n, { q with queue := q.queue.drop n }, voicePlaying, []) := by
      simp [skipCommand, hlt, hp, MusicQueue.skip_tracks,
        Nat.min_eq_left (Nat.le_of_lt hnn)]
    refine ⟨by rw [hcmd], by rw [hcmd], by rw [hcmd], by rw [hcmd], ?_⟩
    rw [hcmd]
    have hdrop := List.drop_eq_getElem_cons hnn
    rw [List.getElem?_eq_getElem hnn, Option.map_some']
    exact handle_complete_current_of_cons raises
      { q with queue := q.queue.drop n } _ _ hdrop

/-- A concrete playing tenant with two queued items. -/
def qSkip : MusicQueue :=
  { queue := [{ track := trackA }, { track := trackB }], is_playing := true }

/-- Witness for C1: skipping 1 on a playing tenant with 2 queued items,
and skipping on a fresh (idle) tenant. -/
theorem skip_command_spec_witness :
    ((skipCommand qSkip (1 : Int) true).1 = .skipped 1 ∧
      (skipCommand qSkip (1 : Int) true).2.1.queue = qSkip.queue.drop 1 ∧
      (skipCommand qSkip (1 : Int) true).2.2.1 = true ∧
      (skipCommand qSkip (1 : Int) true).2.2.2 = [] ∧
      (handle_playback_complete .connected (fun _ => false)
          (skipCommand qSkip (1 : Int) true).2.1).1.current_track =
        (qSkip.queue[1]?).map QueueItem.track) ∧
    skipCommand initialQueue (1 : Int) false =
      (.nothingPlaying, initialQueue, false, []) :=
  ⟨(skip_command_spec qSkip 1 (Nat.le_refl 1) true (fun _ => false)).2
      rfl (by decide),
   (skip_command_spec initialQueue 1 (Nat.le_refl 1) false (fun _ => false)).1
      rfl⟩

/-! ## The reachable-state invariant (C9) -/

/-- The invariant maintained by the orchestrator's operations on a
tenant queue: an idle tenant has no `current_track`, and a non-empty
queue implies playback has been claimed. -/
def QueueInvariant (q : MusicQueue) : Prop :=
  (q.is_playing = false → q.current_track = none) ∧
  (q.queue ≠ [] → q.is_playing = true)

/-- The locked enqueue always leaves `is_playing` set. -/
theorem process_track_is_playing (t : Track) (pos : Option Nat)
    (q : MusicQueue) : (process_track_locked t pos q).1.is_playing = true := by
  rcases pos with _ | p <;> by_cases h : q.is_playing <;>
    simp [process_track_locked, MusicQueue.add_track, h]

/-- `play_next` on a non-empty queue leaves `is_playing` unchanged. -/
theorem play_next_is_playing_of_cons (raises : Callback → Bool)
    (q : MusicQueue) (item : QueueItem) (rest : List QueueItem)
    (hq : q.queue = item :: rest) :
    (play_next_locked .connected raises q).1.is_playing = q.is_playing := by
  rcases hcb : item.callback_id with _ | cid
  · simp [play_next_locked, MusicQueue.get_next_track, hq, hcb]
  · rcases hl : lookupCb q.callbacks cid with _ | cb <;>
      simp [play_next_locked, MusicQueue.get_next_track, hq, hcb, hl]

/-- `clear` re-establishes the invariant from any state. -/
theorem invariant_clear (q : MusicQueue) : QueueInvariant (q.clear).1 := by
  simp [QueueInvariant, MusicQueue.clear]

/-- `play_next` preserves the invariant. -/
theorem invariant_play_next (voice : VoiceStatus) (raises : Callback → Bool)
    (q : MusicQueue) (h : QueueInvariant q) :
    QueueInvariant (play_next_locked voice raises q).1 := by
  cases voice with
  | unreachable => exact invariant_clear q
  | connected =>
      rcases hq : q.queue with _ | ⟨item, rest⟩
      · constructor
        · intro
          simp [play_next_locked, hq]
        · intro hne
          simp [play_next_locked, hq] at hne
      · have hp : q.is_playing = true := h.2 (by simp [hq])
        have hip := play_next_is_playing_of_cons raises q item rest hq
        rw [hp] at hip
        constructor
        · intro habs
          rw [hip] at habs
          exact absurd habs (by simp)
        · intro
          exact hip

/-- The completion handler preserves the invariant. -/
theorem invariant_completion (voice : VoiceStatus) (raises : Callback → Bool)
    (q : MusicQueue) (h : QueueInvariant q) :
    QueueInvariant (handle_playback_complete voice raises q).1 := by
  rcases hq : q.queue with _ | ⟨item, rest⟩
  · constructor
    · intro
      simp [handle_playback_complete, hq]
    · intro hne
      simp [handle_playback_complete, hq] at hne
  · have h2 := invariant_play_next voice raises q h
    simp only [handle_playback_complete, hq] at h2 ⊢
    exact h2

/-- Every state reachable through the orchestrator's operations satisfies
the invariant. -/
theorem reachable_invariant (q : MusicQueue) (h : Reachable q) :
    QueueInvariant q := by
  induction h with
  | init =>
      exact ⟨fun _ => rfl, fun hne => absurd rfl hne⟩
  | enqueue t pos q0 _ _ =>
      have hp := process_track_is_playing t pos q0
      exact ⟨fun habs => absurd habs (by simp [hp]), fun _ => hp⟩
  | playNext voice raises q0 _ ih =>
      exact invariant_play_next voice raises q0 ih
  | completion voice raises q0 _ ih =>
      exact invariant_completion voice raises q0 ih
  | stop q0 _ _ =>
      exact invariant_clear q0

/-- C9: in every tenant-queue state reachable through the orchestrator's
operations (enqueue, `play_next`, completion handling, clear/stop),
`is_playing = false` implies `current_track = none`. -/
theorem reachable_not_playing_no_current (q : MusicQueue) (h : Reachable q)
    (hnp : q.is_playing = false) : q.current_track = none :=
  (reachable_invariant q h).1 hnp

/-- Witness for C9 at the initial tenant-queue state. -/
theorem reachable_not_playing_no_current_witness :
    initialQueue.current_track = none :=
  reachable_not_playing_no_current initialQueue Reachable.init rfl

/-! ## Order and progress of batch processing (C6) -/

/-- Projections of one step of the batch-results loop: the enqueued
tracks grow by exactly the resolved track (if any), `added`/`skipped`
account for the entry, and the loader and `playlist_processing` are
untouched. -/
theorem processResult_proj (url : String) (startIdx : Nat) (s : BatchState)
    (n : Nat) (r : ResolveResult) :
    ((processResult url startIdx s (n, r)).enqueued.map Prod.fst
      = s.enqueued.map Prod.fst ++ (okTrack r).toList) ∧
    ((processResult url startIdx s (n, r)).added
      = s.added + (okTrack r).toList.length) ∧
    ((processResult url startIdx s (n, r)).added
        + (processResult url startIdx s (n, r)).skipped
      = s.added + s.skipped + 1) ∧
    ((processResult url startIdx s (n, r)).q.playlist_loader
      = s.q.playlist_loader) ∧
    ((processResult url startIdx s (n, r)).q.playlist_processing
      = s.q.playlist_processing) := by
  cases r with
  | exn => simp [processResult, okTrack]; omega
  | failed => simp [processResult, okTrack]; omega
  | resolved t =>
      simp only [processResult, okTrack]
      split_ifs with h1 h2 h2 <;>
        simp [MusicQueue.add_track] <;> omega

/-- Projections of the whole batch-results loop. -/
theorem foldBatch_spec (url : String) (startIdx : Nat)
    (rs : List ResolveResult) :
    ∀ (n : Nat) (s : BatchState),
    (((rs.enumFrom n).foldl (processResult url startIdx) s).enqueued.map Prod.fst
      = s.enqueued.map Prod.fst ++ rs.filterMap okTrack) ∧
    (((rs.enumFrom n).foldl (processResult url startIdx) s).added
      = s.added + (rs.filterMap okTrack).length) ∧
    (((rs.enumFrom n).foldl (processResult url startIdx) s).added
        + ((rs.enumFrom n).foldl (processResult url startIdx) s).skipped
      = s.added + s.skipped + rs.length) ∧
    (((rs.enumFrom n).foldl (processResult url startIdx) s).q.playlist_loader
      = s.q.playlist_loader) ∧
    (((rs.enumFrom n).foldl (processResult url startIdx) s).q.playlist_processing
      = s.q.playlist_processing) := by
  induction rs with
  | nil => intro n s; simp [List.enumFrom]
  | cons r tl ih =>
      intro n s
      have hstep := processResult_proj url startIdx s n r
      have hrest := ih (n + 1) (processResult url startIdx s (n, r))
      simp only [List.enumFrom, List.foldl_cons]
      refine ⟨?_, ?_, ?_, ?_, ?_⟩
      · rw [hrest.1, hstep.1]
        cases r <;> simp [okTrack]
      · rw [hrest.2.1, hstep.2.1]
        cases r <;> simp [okTrack]
        omega
      · rw [hrest.2.2.1, hstep.2.2.1]
        simp
        omega
      · rw [hrest.2.2.2.1, hstep.2.2.2.1]
      · rw [hrest.2.2.2.2, hstep.2.2.2.2]

/-- A batch whose slice is empty (cursor at or past the end) just clears
`playlist_processing`. -/
theorem processBatch_terminal (url : String) (resolve : Entry → ResolveResult)
    (q : MusicQueue) (pl : PlaylistLoader) (msgs0 : List Msg)
    (hpl : q.playlist_loader = some pl)
    (hc : pl.video_entries.length ≤ pl.current_index) :
    processBatch url resolve q msgs0 =
      { q := q.finish_playlist_loading, msgs := msgs0 } := by
  have h0 : min (pl.current_index + 10) pl.video_entries.length
      - pl.current_index = 0 := by omega
  simp [processBatch, hpl, h0]

/-- Characterization of a non-terminal batch: it enqueues exactly the
successfully resolved entries of the slice
`video_entries[cursor : cursor+10]` in slice order, counts every slice
entry as added or skipped, advances the cursor to the batch end whatever
the resolution results, and clears `playlist_processing` exactly when the
batch reaches the end of the playlist. -/
theorem processBatch_step (url : String) (resolve : Entry → ResolveResult)
    (q : MusicQueue) (pl : PlaylistLoader) (msgs0 : List Msg)
    (hpl : q.playlist_loader = some pl)
    (hlt : pl.current_index < pl.video_entries.length) :
    ((processBatch url resolve q msgs0).enqueued.map Prod.fst
      = ((pl.video_entries.drop pl.current_index).take
            (min (pl.current_index + 10) pl.video_entries.length
              - pl.current_index)).filterMap (fun e => okTrack (resolve e))) ∧
    ((processBatch url resolve q msgs0).added
      = (((pl.video_entries.drop pl.current_index).take
            (min (pl.current_index + 10) pl.video_entries.length
              - pl.current_index)).filterMap
            (fun e => okTrack (resolve e))).length) ∧
    ((processBatch url resolve q msgs0).added
        + (processBatch url resolve q msgs0).skipped
      = min (pl.current_index + 10) pl.video_entries.length
          - pl.current_index) ∧
    ((processBatch url resolve q msgs0).q.playlist_loader
      = some { pl with
               current_index :=
                 min (pl.current_index + 10) pl.video_entries.length }) ∧
    ((processBatch url resolve q msgs0).q.playlist_processing
      = if pl.video_entries.length ≤ pl.current_index + 10 then false
        else q.playlist_processing) := by
  have hbne : ¬ ((pl.video_entries.drop pl.current_index).take
      (min (pl.current_index + 10) pl.video_entries.length
        - pl.current_index) = []) := by
    intro h
    have hlen := congrArg List.length h
    rw [List.length_take, List.length_drop] at hlen
    simp at hlen
    omega
  have hfold := foldBatch_spec url pl.current_index
    (((pl.video_entries.drop pl.current_index).take
        (min (pl.current_index + 10) pl.video_entries.length
          - pl.current_index)).map resolve) 0 ({ q := q } : BatchState)
  refine ⟨?_, ?_, ?_, ?_, ?_⟩
  · simp only [processBatch, hpl, if_neg hbne, List.enum]
    rw [hfold.1]
    simp only [List.filterMap_map]
    rfl
  · simp only [processBatch, hpl, if_neg hbne, List.enum]
    rw [hfold.2.1]
    simp only [List.filterMap_map, Nat.zero_add]
    rfl
  · simp only [processBatch, hpl, if_neg hbne, List.enum]
    rw [hfold.2.2.1]
    simp only [List.length_map, List.length_take, List.length_drop]
    omega
  · have hload := hfold.2.2.2.1
    rw [show ({ q := q } : BatchState).q.playlist_loader = some pl from hpl]
      at hload
    simp only [processBatch, hpl, if_neg hbne, List.enum]
    rw [hload]
    simp only [Option.map_some']
    split <;> simp [MusicQueue.finish_playlist_loading]
  · have hload := hfold.2.2.2.1
    rw [show ({ q := q } : BatchState).q.playlist_loader = some pl from hpl]
      at hload
    have hproc : _ = q.playlist_processing := hfold.2.2.2.2
    simp only [processBatch, hpl, if_neg hbne, List.enum]
    rw [hload]
    simp only [Option.map_some', MusicQueue.is_playlist_complete]
    by_cases hcomp : pl.video_entries.length ≤ pl.current_index + 10
    · have hmin : min (pl.current_index + 10) pl.video_entries.length ≥
          pl.video_entries.length := by omega
      simp [MusicQueue.finish_playlist_loading, hmin, hcomp]
    · have hmin : ¬ (min (pl.current_index + 10) pl.video_entries.length ≥
          pl.video_entries.length) := by omega
      rw [if_neg hcomp, if_neg (by simpa using hmin)]
      exact hproc

/-- `driveLoader` is inert once `playlist_processing` is cleared. -/
theorem driveLoader_not_processing (url : String)
    (resolve : Entry → ResolveResult) (fuel : Nat) (q : MusicQueue)
    (h : q.playlist_processing = false) :
    driveLoader url resolve fuel q = (q, [], 0, 0) := by
  cases fuel <;> simp [driveLoader, h]

/-- Driving the loader to completion from any cursor position enqueues
exactly the successfully resolved remaining entries in playlist order,
accounts every remaining entry as added or skipped, clears
`playlist_processing`, and leaves the cursor at the playlist's end. -/
theorem driveLoader_spec (url : String) (resolve : Entry → ResolveResult)
    (es : List Entry) :
    ∀ (fuel : Nat) (q : MusicQueue) (pl : PlaylistLoader),
    q.playlist_loader = some pl → pl.video_entries = es →
    q.playlist_processing = true → pl.current_index ≤ es.length →
    es.length - pl.current_index < fuel →
    ((driveLoader url resolve fuel q).2.1.map Prod.fst
      = (es.drop pl.current_index).filterMap (fun e => okTrack (resolve e))) ∧
    ((driveLoader url resolve fuel q).2.2.1
      = ((es.drop pl.current_index).filterMap
          (fun e => okTrack (resolve e))).length) ∧
    ((driveLoader url resolve fuel q).2.2.1
        + (driveLoader url resolve fuel q).2.2.2
      = es.length - pl.current_index) ∧
    ((driveLoader url resolve fuel q).1.playlist_processing = false) ∧
    ((driveLoader url resolve fuel q).1.playlist_loader
      = some { pl with current_index := es.length }) := by
  intro fuel
  induction fuel with
  | zero =>
      intro q pl hpl hes hproc hle hfuel
      omega
  | succ f ih =>
      intro q pl hpl hes hproc hle hfuel
      by_cases hterm : es.length ≤ pl.current_index
      · have hc : pl.current_index = es.length := by omega
        have hbatch := processBatch_terminal url resolve q pl [] hpl
          (by rw [hes]; omega)
        have hrest := driveLoader_not_processing url resolve f
          (q.finish_playlist_loading) rfl
        simp only [driveLoader, hproc, if_true, hbatch, hrest]
        have hplsame : ({ current_index := es.length,
                          video_entries := es,
                          total_tracks := pl.total_tracks,
                          is_loading := pl.is_loading,
                          url := pl.url } : PlaylistLoader) = pl := by
          rw [← hc, ← hes]
        simp [MusicQueue.finish_playlist_loading, hc, List.drop_length, hes,
          hpl, hplsame]
      · have hlt2 : pl.current_index < pl.video_entries.length := by
          rw [hes]; omega
        have hstep := processBatch_step url resolve q pl [] hpl hlt2
        rw [hes] at hstep
        obtain ⟨hs1, hs2, hs3, hs4, hs5⟩ := hstep
        by_cases hlast : es.length ≤ pl.current_index + 10
        · have hproc2 : (processBatch url resolve q []).q.playlist_processing
              = false := by
            rw [hs5, if_pos hlast]
          have hrest := driveLoader_not_processing url resolve f
            (processBatch url resolve q []).q hproc2
          have hfull : (es.drop pl.current_index).take
              (min (pl.current_index + 10) es.length - pl.current_index)
              = es.drop pl.current_index := by
            apply List.take_of_length_le
            simp only [List.length_drop]
            omega
          have hend : min (pl.current_index + 10) es.length = es.length := by
            omega
          simp only [driveLoader, hproc, if_true, hrest]
          refine ⟨?_, ?_, ?_, ?_, ?_⟩
          · simp only [List.append_nil]
            rw [hs1, hfull]
          · simp only [Nat.add_zero]
            rw [hs2, hfull]
          · simp only [Nat.add_zero]
            omega
          · exact hproc2
          · rw [hs4, hend, hes]
        · have hproc2 : (processBatch url resolve q []).q.playlist_processing
              = true := by
            rw [hs5, if_neg hlast]
            exact hproc
          have hend : min (pl.current_index + 10) es.length
              = pl.current_index + 10 := by
            omega
          have hih := ih (processBatch url resolve q []).q
            { current_index := min (pl.current_index + 10) es.length,
              video_entries := es,
              total_tracks := pl.total_tracks,
              is_loading := pl.is_loading,
              url := pl.url }
            hs4 rfl hproc2 (by simp only; omega) (by simp only; omega)
          simp only [hend] at hih
          obtain ⟨hi1, hi2, hi3, hi4, hi5⟩ := hih
          have hsplit : (es.drop pl.current_index).filterMap
              (fun e => okTrack (resolve e))
              = ((es.drop pl.current_index).take
                  (min (pl.current_index + 10) es.length
                    - pl.current_index)).filterMap
                  (fun e => okTrack (resolve e))
                ++ (es.drop (pl.current_index + 10)).filterMap
                  (fun e => okTrack (resolve e)) := by
            rw [← List.filterMap_append]
            congr 1
            rw [hend]
            have := List.drop_take_append_drop es pl.current_index 10
            rw [show pl.current_index + 10 - pl.current_index = 10 from by omega]
            exact this.symm
          simp only [driveLoader, hproc, if_true]
          refine ⟨?_, ?_, ?_, ?_, ?_⟩
          · rw [List.map_append, hs1, hi1, hsplit]
          · rw [hs2, hi2, hsplit, List.length_append]
          · omega
          · exact hi4
          · rw [hi5, hes]

/-- C6: playlist ingestion applies per-entry resolution results to the
queue in original playlist order.  Since `asyncio.gather` delivers the
batch results in entry order whatever the completion order of the
concurrent resolutions, the model's resolution oracle is a function of
the entry alone, so the conclusions are independent of completion order
by construction.  First part: every non-terminal batch advances the
cursor to the batch end regardless of the per-entry outcomes, enqueues
exactly the slice's successfully resolved entries in slice order, and
counts every slice entry as added or skipped (failures do not abort the
batch).  Second part: driving all batches from cursor 0 enqueues exactly
the successfully resolved entries of the whole playlist, in original
order, with every entry counted and the cursor at the playlist's end. -/
theorem playlist_ingestion_order (url : String)
    (resolve : Entry → ResolveResult) (q : MusicQueue) (pl : PlaylistLoader)
    (hpl : q.playlist_loader = some pl)
    (hproc : q.playlist_processing = true) :
    (pl.current_index < pl.video_entries.length →
      ((processBatch url resolve q []).q.playlist_loader
        = some { pl with
                 current_index :=
                   min (pl.current_index + 10) pl.video_entries.length }) ∧
      ((processBatch url resolve q []).enqueued.map Prod.fst
        = ((pl.video_entries.drop pl.current_index).take
            (min (pl.current_index + 10) pl.video_entries.length
              - pl.current_index)).filterMap (fun e => okTrack (resolve e))) ∧
      ((processBatch url resolve q []).added
          + (processBatch url resolve q []).skipped
        = min (pl.current_index + 10) pl.video_entries.length
            - pl.current_index)) ∧
    (pl.current_index = 0 →
      ((driveLoader url resolve (pl.video_entries.length + 1) q).2.1.map
          Prod.fst
        = pl.video_entries.filterMap (fun e => okTrack (resolve e))) ∧
      ((driveLoader url resolve (pl.video_entries.length + 1) q).2.2.1
        = (pl.video_entries.filterMap (fun e => okTrack (resolve e))).length) ∧
      ((driveLoader url resolve (pl.video_entries.length + 1) q).2.2.1
          + (driveLoader url resolve (pl.video_entries.length + 1) q).2.2.2
        = pl.video_entries.length) ∧
      ((driveLoader url resolve
          (pl.video_entries.length + 1) q).1.playlist_processing = false) ∧
      ((driveLoader url resolve
          (pl.video_entries.length + 1) q).1.playlist_loader
        = some { pl with current_index := pl.video_entries.length })) := by
  constructor
  · intro hlt
    have hstep := processBatch_step url resolve q pl [] hpl hlt
    exact ⟨hstep.2.2.2.1, hstep.1, hstep.2.2.1⟩
  · intro hc0
    have hd := driveLoader_spec url resolve pl.video_entries
      (pl.video_entries.length + 1) q pl hpl rfl hproc (by omega) (by omega)
    rw [hc0, List.drop_zero] at hd
    exact ⟨hd.1, hd.2.1, by omega, hd.2.2.2.1, hd.2.2.2.2⟩

/-- A concrete resolution oracle: entries "0", "4" and "11" resolve,
everything else fails. -/
def resolveW : Entry → ResolveResult :=
  fun e =>
    if e.url = "0" ∨ e.url = "4" ∨ e.url = "11" then
      .resolved { title := e.url, url := e.url, duration := 0 }
    else .exn

/-- A concrete loader mid-setup over `entries12` at cursor 0. -/
def plC6 : PlaylistLoader :=
  { current_index := 0, video_entries := entries12, total_tracks := 12,
    is_loading := false, url := "pl" }

/-- A concrete tenant queue carrying `plC6`. -/
def qC6 : MusicQueue :=
  { playlist_processing := true, playlist_loader := some plC6 }

/-- Witness for C6 at the concrete 12-entry playlist with a mixed
success/failure pattern. -/
theorem playlist_ingestion_order_witness :
    ((driveLoader "pl" resolveW (entries12.length + 1) qC6).2.1.map Prod.fst
      = entries12.filterMap (fun e => okTrack (resolveW e))) ∧
    ((driveLoader "pl" resolveW
        (entries12.length + 1) qC6).1.playlist_processing = false) ∧
    ((processBatch "pl" resolveW qC6 []).q.playlist_loader
      = some { plC6 with current_index := min (0 + 10) entries12.length }) :=
  ⟨((playlist_ingestion_order "pl" resolveW qC6 plC6 rfl rfl).2 rfl).1,
   ((playlist_ingestion_order "pl" resolveW qC6 plC6 rfl rfl).2
      rfl).2.2.2.1,
   ((playlist_ingestion_order "pl" resolveW qC6 plC6 rfl rfl).1
      (by decide)).1⟩

end MusicAI
